import Mathlib

/-
Verification development for the svZeroDPlus 0D hemodynamics solver core.

This file gives a shallow embedding, over exact rational arithmetic, of the
numerical kernel of the solver:

* the dense/sparse system container `system.hpp` (matrices E, F, dE, dF, dC,
  source vector C, residual, jacobian) and its `update_jacobian`;
* the generalized-alpha `Integrator` (`integrator.hpp`): constructor constants,
  predictor, initiator, Newton loop and corrector of `Integrator::step`;
* the `Junction` block's `update_constant` (`Junction.cpp`, zd_model revision);
* `load_simulation_params` (`SimulationParameters.cpp`) and the time-step /
  steady-initialization prelude of `run()`;
* `Model` bookkeeping (`Model.cpp`): `to_steady`/`to_unsteady`,
  `get_num_triplets`, `get_block`, `get_block_type`.

Machine doubles are modelled by rationals (the claims under study are about
algebraic structure of the updates, not rounding), Eigen vectors of length n by
functions `Fin n -> Q`, and sparse matrices by total functions on indices.
C++ exceptions are modelled by `Except String`.
-/

namespace SvZeroD

/-! ### The system container (`system.hpp`)

`System` and `SparseSystem` hold the same data and have textually identical
`update_residual`/`update_jacobian`; one embedding covers both.  Matrices are
index functions; `coeffRef` assignment is pointwise function update. -/

structure SparseSystemQ where
  F : ℕ → ℕ → ℚ
  E : ℕ → ℕ → ℚ
  dF : ℕ → ℕ → ℚ
  dE : ℕ → ℕ → ℚ
  dC : ℕ → ℕ → ℚ
  C : ℕ → ℚ
  jacobian : ℕ → ℕ → ℚ
  residual : ℕ → ℚ
  dy : ℕ → ℚ

/-- `system.hpp` lines 62-66 and 135-139: `jacobian = F + dE + dF + dC + E * e_coeff`
(elementwise; `E * e_coeff` scales `E` by the scalar, the other four summands are
added unscaled). -/
def SparseSystemQ.update_jacobian (s : SparseSystemQ) (e_coeff : ℚ) : SparseSystemQ :=
  { s with jacobian := fun i j => s.F i j + s.dE i j + s.dF i j + s.dC i j + s.E i j * e_coeff }

/-- A single `coeffRef(r, c) = v` assignment into `F`. -/
def setF (s : SparseSystemQ) (r c : ℕ) (v : ℚ) : SparseSystemQ :=
  { s with F := fun r' c' => if r' = r ∧ c' = c then v else s.F r' c' }

/-! ### Generalized-alpha integrator (`integrator.hpp`)

The constructor (lines 89-109) computes the scheme constants; note that the
source defines `alpha_m_inv = alpha_m / 1.0` and `alpha_f_inv = alpha_f / 1.0`
(i.e. the `_inv` fields hold the *uninverted* values). -/

structure IntegratorQ where
  alpha_m : ℚ
  alpha_f : ℚ
  alpha_m_inv : ℚ
  alpha_f_inv : ℚ
  gamma : ℚ
  gamma_inv : ℚ
  time_step_size : ℚ
  time_step_size_inv : ℚ
  y_dot_coeff : ℚ
  atol : ℚ
  max_iter : ℕ

/-- `Integrator::Integrator` (integrator.hpp lines 89-109). -/
def mkIntegrator (rho time_step_size atol : ℚ) (max_iter : ℕ) : IntegratorQ :=
  let alpha_m : ℚ := 1/2 * (3 - rho) / (1 + rho)
  let alpha_f : ℚ := 1 / (1 + rho)
  let gamma : ℚ := 1/2 + alpha_m - alpha_f
  { alpha_m := alpha_m
    alpha_f := alpha_f
    alpha_m_inv := alpha_m / 1
    alpha_f_inv := alpha_f / 1
    gamma := gamma
    gamma_inv := 1 / gamma
    time_step_size := time_step_size
    time_step_size_inv := 1 / time_step_size
    y_dot_coeff := alpha_m / (alpha_f * gamma) * (1 / time_step_size)
    atol := atol
    max_iter := max_iter }

/-- State carried between steps (`state.hpp`): vectors `y` and `ydot`. -/
structure StateQ (n : ℕ) where
  y : Fin n → ℚ
  ydot : Fin n → ℚ

/-- Predictor for `y` (integrator.hpp line 125):
`new_state.y = old_state.y + 0.5 * time_step_size * old_state.ydot`. -/
def predictor_y {n : ℕ} (itg : IntegratorQ) (y ydot : Fin n → ℚ) : Fin n → ℚ :=
  y + ((1/2 : ℚ) * itg.time_step_size) • ydot

/-- Predictor for `ydot` (integrator.hpp line 126):
`new_state.ydot = old_state.ydot * (gamma - 0.5) * gamma_inv`. -/
def predictor_ydot {n : ℕ} (itg : IntegratorQ) (ydot : Fin n → ℚ) : Fin n → ℚ :=
  ((itg.gamma - 1/2) * itg.gamma_inv) • ydot

/-- Initiator for `y` (integrator.hpp line 129):
`y_af = old_state.y + alpha_f * (new_state.y - old_state.y)`. -/
def initiator_y {n : ℕ} (itg : IntegratorQ) (y y_pred : Fin n → ℚ) : Fin n → ℚ :=
  y + itg.alpha_f • (y_pred - y)

/-- Initiator for `ydot` (integrator.hpp line 130):
`ydot_am = old_state.ydot + alpha_m * (new_state.ydot - old_state.ydot)`. -/
def initiator_ydot {n : ℕ} (itg : IntegratorQ) (ydot ydot_pred : Fin n → ℚ) : Fin n → ℚ :=
  ydot + itg.alpha_m • (ydot_pred - ydot)

/-- Corrector for `y` (integrator.hpp line 168):
`new_state.y = old_state.y + (y_af - old_state.y) * alpha_f_inv`. -/
def corrector_y {n : ℕ} (itg : IntegratorQ) (y y_af : Fin n → ℚ) : Fin n → ℚ :=
  y + itg.alpha_f_inv • (y_af - y)

/-- Corrector for `ydot` (integrator.hpp line 169):
`new_state.ydot = old_state.ydot + (ydot_am - old_state.ydot) / alpha_m_inv`
(componentwise division by the scalar `alpha_m_inv`). -/
def corrector_ydot {n : ℕ} (itg : IntegratorQ) (ydot ydot_am : Fin n → ℚ) : Fin n → ℚ :=
  ydot + (itg.alpha_m_inv)⁻¹ • (ydot_am - ydot)

/-! ### The Newton loop of `Integrator::step`

`step` drives the model and system through an abstract interface: the loop only
needs `update_solution`, `update_residual`, the max-abs residual entry,
`update_jacobian`, `solve` and the resulting increment `dy`.  `SysOps`
abstracts these over an arbitrary system-state type, so the control flow of the
loop (integrator.hpp lines 138-165) is embedded exactly while the block
assembly stays a parameter. -/

structure SysOps (σ : Type) (n : ℕ) where
  update_time : σ → ℚ → σ
  update_solution : σ → (Fin n → ℚ) → σ
  update_residual : σ → (Fin n → ℚ) → (Fin n → ℚ) → σ
  residual_maxabs : σ → ℚ
  update_jacobian : σ → ℚ → σ
  solve : σ → σ
  dy : σ → (Fin n → ℚ)

/-- The message of the `std::runtime_error` thrown at integrator.hpp line 153
(typo as in the source). -/
def newton_error_msg : String := "Maxium number of non-linear iterations reached."

/-- Loop body prefix (integrator.hpp lines 141-144): update the
solution-dependent contributions from `y_af`, then the residual from
`(y_af, ydot_am)`. -/
def newtonPrep {σ : Type} {n : ℕ} (ops : SysOps σ n)
    (s : (Fin n → ℚ) × (Fin n → ℚ) × σ) : (Fin n → ℚ) × (Fin n → ℚ) × σ :=
  (s.1, s.2.1, ops.update_residual (ops.update_solution s.2.2 s.1) s.1 s.2.1)

/-- Loop body suffix (integrator.hpp lines 157-164): jacobian, solve, and the
increments `y_af += dy`, `ydot_am += dy * y_dot_coeff`. -/
def newtonIncr {σ : Type} {n : ℕ} (itg : IntegratorQ) (ops : SysOps σ n)
    (s : (Fin n → ℚ) × (Fin n → ℚ) × σ) : (Fin n → ℚ) × (Fin n → ℚ) × σ :=
  let sys1 := ops.solve (ops.update_jacobian s.2.2 itg.y_dot_coeff)
  (s.1 + ops.dy sys1, s.2.1 + itg.y_dot_coeff • ops.dy sys1, sys1)

/-- The loop `for (i = 0; i < max_iter; i++)` of integrator.hpp lines 138-165,
parameterized by the number of remaining iterations (so `i == max_iter - 1`
becomes `remaining = 1`).  Breaking with success returns the current
`(y_af, ydot_am, system)`; reaching the last iteration without convergence
throws. -/
def newtonLoop {σ : Type} {n : ℕ} (itg : IntegratorQ) (ops : SysOps σ n) :
    ℕ → (Fin n → ℚ) × (Fin n → ℚ) × σ → Except String ((Fin n → ℚ) × (Fin n → ℚ) × σ)
  | 0, s => .ok s
  | (nrem+1), s =>
    if ops.residual_maxabs (newtonPrep ops s).2.2 < itg.atol then .ok (newtonPrep ops s)
    else if nrem = 0 then .error newton_error_msg
    else newtonLoop itg ops nrem (newtonIncr itg ops (newtonPrep ops s))

/-- State reached after `k` full Newton iterations (prep + increment) from `s`. -/
def newtonIterate {σ : Type} {n : ℕ} (itg : IntegratorQ) (ops : SysOps σ n) :
    ℕ → (Fin n → ℚ) × (Fin n → ℚ) × σ → (Fin n → ℚ) × (Fin n → ℚ) × σ
  | 0, s => s
  | (k+1), s => newtonIterate itg ops k (newtonIncr itg ops (newtonPrep ops s))

/-- The max-abs residual checked against `atol` in the `k`-th loop iteration
started from `s`. -/
def newtonResid {σ : Type} {n : ℕ} (itg : IntegratorQ) (ops : SysOps σ n)
    (s : (Fin n → ℚ) × (Fin n → ℚ) × σ) (k : ℕ) : ℚ :=
  ops.residual_maxabs (newtonPrep ops (newtonIterate itg ops k s)).2.2

/-- Predictor, initiator and time update of `Integrator::step`
(integrator.hpp lines 120-136): the loop's initial `(y_af, ydot_am, system)`. -/
def stepInit {σ : Type} {n : ℕ} (itg : IntegratorQ) (ops : SysOps σ n)
    (st : StateQ n) (time : ℚ) (sys : σ) : (Fin n → ℚ) × (Fin n → ℚ) × σ :=
  let y_pred := predictor_y itg st.y st.ydot
  let ydot_pred := predictor_ydot itg st.ydot
  (initiator_y itg st.y y_pred, initiator_ydot itg st.ydot ydot_pred,
    ops.update_time sys (time + itg.alpha_f * itg.time_step_size))

/-- `Integrator::step` (integrator.hpp lines 116-172): predictor/initiator/time
update, Newton loop, corrector.  The `std::runtime_error` escapes the call, so
a non-converged step yields `Except.error` and no state. -/
def Integrator.step {σ : Type} {n : ℕ} (itg : IntegratorQ) (ops : SysOps σ n)
    (st : StateQ n) (time : ℚ) (sys : σ) : Except String (StateQ n × σ) :=
  match newtonLoop itg ops itg.max_iter (stepInit itg ops st time sys) with
  | .error e => .error e
  | .ok s => .ok (⟨corrector_y itg st.y s.1, corrector_ydot itg st.ydot s.2.1⟩, s.2.2)

/-! ### The `Junction` block (`Junction.cpp`, zd_model revision, lines 6-36)

A junction's DOF layout follows the documented convention for junction-type
blocks (spec and block doc comments): `global_var_ids[2k]` is the pressure DOF
and `global_var_ids[2k+1]` the flow DOF of the k-th connected node, inlets
first.  The id vectors are embedded as index functions. -/

structure JunctionQ where
  num_inlets : ℕ
  num_outlets : ℕ
  global_eqn_ids : ℕ → ℕ
  global_var_ids : ℕ → ℕ

/-- The sequence of `coeffRef` writes performed by `Junction::update_constant`
(Junction.cpp lines 17-36), in program order:
pressure rows `for i < num_inlets + num_outlets - 1` write `+1` at
`(eqn[i], var[0])` and `-1` at `(eqn[i], var[2i+2])`; the mass row writes `+1`
at `(eqn[last], var[i])` for odd `i < 2*num_inlets` and `-1` for odd `i` with
`2*num_inlets < i < 2*(num_inlets+num_outlets)`. -/
def junctionWrites (j : JunctionQ) : List (ℕ × ℕ × ℚ) :=
  (List.range (j.num_inlets + j.num_outlets - 1)).flatMap
    (fun i => [(j.global_eqn_ids i, j.global_var_ids 0, (1 : ℚ)),
               (j.global_eqn_ids i, j.global_var_ids (2*i + 2), (-1 : ℚ))])
  ++ (List.range j.num_inlets).map
    (fun k => (j.global_eqn_ids (j.num_inlets + j.num_outlets - 1),
               j.global_var_ids (2*k + 1), (1 : ℚ)))
  ++ (List.range j.num_outlets).map
    (fun k => (j.global_eqn_ids (j.num_inlets + j.num_outlets - 1),
               j.global_var_ids (2*(j.num_inlets + k) + 1), (-1 : ℚ)))

/-- `Junction::update_constant` (Junction.cpp lines 17-36): perform the write
sequence on `F`; no other member of the system is touched. -/
def Junction.update_constant (j : JunctionQ) (s : SparseSystemQ) : SparseSystemQ :=
  (junctionWrites j).foldl (fun acc w => setF acc w.1 w.2.1 w.2.2) s

/-! ### Simulation parameters and the `run()` prelude
(`SimulationParameters.cpp` lines 118-150, `run()` in the concatenated
Junction.cpp lines 293-408)

C++ `int` fields are embedded as `ℤ`, doubles as `ℚ`.  Optional JSON keys read
through `json::value(key, default)` are `Option` fields resolved with `getD`. -/

structure SimConfig where
  coupled_simulation : Option Bool
  number_of_cardiac_cycles : ℤ
  number_of_time_pts_per_cardiac_cycle : ℤ
  number_of_time_pts : ℤ
  external_step_size : Option ℚ
  absolute_tolerance : Option ℚ
  maximum_nonlinear_iterations : Option ℤ
  steady_initial : Option Bool

structure SimulationParameters where
  sim_num_cycles : ℤ
  sim_pts_per_cycle : ℤ
  sim_num_time_steps : ℤ
  sim_external_step_size : ℚ
  sim_abs_tol : ℚ
  sim_nliter : ℤ
  sim_steady_initial : Bool
  sim_coupled : Bool

/-- `load_simulation_params` (SimulationParameters.cpp lines 118-150), restricted
to the fields the claims are about. -/
def load_simulation_params (c : SimConfig) : SimulationParameters :=
  let coupled := c.coupled_simulation.getD false
  if !coupled then
    { sim_coupled := false
      sim_num_cycles := c.number_of_cardiac_cycles
      sim_pts_per_cycle := c.number_of_time_pts_per_cardiac_cycle
      sim_num_time_steps :=
        (c.number_of_time_pts_per_cardiac_cycle - 1) * c.number_of_cardiac_cycles + 1
      sim_external_step_size := 0
      sim_abs_tol := c.absolute_tolerance.getD (1 / 100000000)
      sim_nliter := c.maximum_nonlinear_iterations.getD 30
      sim_steady_initial := c.steady_initial.getD true }
  else
    { sim_coupled := true
      sim_num_cycles := 1
      sim_pts_per_cycle := c.number_of_time_pts
      sim_num_time_steps := c.number_of_time_pts
      sim_external_step_size := (c.external_step_size.getD (1/10))
      sim_abs_tol := c.absolute_tolerance.getD (1 / 100000000)
      sim_nliter := c.maximum_nonlinear_iterations.getD 30
      sim_steady_initial := c.steady_initial.getD true }

/-- The time-step-size computation of `run()` (Junction.cpp lines 316-323):
non-coupled runs use `cardiac_cycle_period / (pts_per_cycle - 1)`, coupled runs
use `external_step_size / (num_time_steps - 1)`. -/
def run_time_step_size (sp : SimulationParameters) (cardiac_cycle_period : ℚ) : ℚ :=
  if !sp.sim_coupled then cardiac_cycle_period / ((sp.sim_pts_per_cycle : ℚ) - 1)
  else sp.sim_external_step_size / ((sp.sim_num_time_steps : ℚ) - 1)

/-- The message of the `std::runtime_error` constructed (but never thrown: the
statement at Junction.cpp lines 304-306 lacks a `throw`) when steady
initialization is requested while a block named "CLH" exists. -/
def clh_steady_error_msg : String :=
  "ERROR: Steady initial condition is not compatible with ClosedLoopHeartAndPulmonary block."

structure RunInput where
  sim_steady_initial : Bool
  has_clh_block : Bool
  sim_coupled : Bool
  sim_pts_per_cycle : ℤ
  sim_num_time_steps : ℤ
  sim_external_step_size : ℚ
  cardiac_cycle_period : ℚ

/-- Control-flow skeleton of `run()` (Junction.cpp lines 293-408) up to and
including the integration loops, returning the time step size, the number of
steady-initialization integrator steps executed, and the number of main-loop
integrator steps executed.  The steady-initial/CLH compatibility check at
lines 300-307 evaluates `std::runtime_error(error_message)` as an expression
statement and discards the result, so it has no effect on control flow; every
genuine `throw` in this path would surface as `Except.error`. -/
def run_sim (inp : RunInput) : Except String (ℚ × ℕ × ℕ) :=
  let period := if inp.cardiac_cycle_period < 0 then (1 : ℚ) else inp.cardiac_cycle_period
  let dt := if !inp.sim_coupled then period / ((inp.sim_pts_per_cycle : ℚ) - 1)
            else inp.sim_external_step_size / ((inp.sim_num_time_steps : ℚ) - 1)
  let steady_steps : ℕ := if inp.sim_steady_initial then 31 else 0
  let main_steps : ℕ := (inp.sim_num_time_steps - 1).toNat
  Except.ok (dt, steady_steps, main_steps)

/-! ### Parameters and the `Model` (`Model.cpp`, zd_model revision) -/

/-- Observable content of a parameter: a constant scalar or a sampled
time-dependent curve (times, values). -/
inductive ParamVal where
  | const : ℚ → ParamVal
  | curve : List ℚ → List ℚ → ParamVal
deriving DecidableEq

/-- Modelled from the spec: the `Parameter` class (its source file is not under
src/; only its callers in Model.cpp are).  Spec 4.2: a parameter is a constant
scalar or a piecewise-linear curve; `to_steady` caches the current curve and
replaces it with the mean of its values over one cycle; `to_unsteady` restores
the cache.  Model.cpp additionally calls `Parameter::update(value)` and
`Parameter::get(0.0)`; `update` is modelled as overwriting the parameter with
the constant scalar (spec 4.3/9: "cache and zero their capacitance"), and
`get(0.0)` evaluates a curve at its first sample (curves start at time 0). -/
structure ParameterQ where
  val : ParamVal
  cache : Option ParamVal
deriving DecidableEq

def defaultParameter : ParameterQ := ⟨ParamVal.const 0, none⟩

/-- Mean of the sampled values of a parameter (spec 4.2: "replaces with its
cycle mean"); the mean of a constant is itself. -/
def meanVal : ParamVal → ℚ
  | .const v => v
  | .curve _ vs => vs.sum / vs.length

/-- Modelled from the spec (see `ParameterQ`): cache the current content,
replace it by its cycle mean. -/
def ParameterQ.to_steady (p : ParameterQ) : ParameterQ :=
  ⟨ParamVal.const (meanVal p.val), some p.val⟩

/-- Modelled from the spec (see `ParameterQ`): restore the cached content. -/
def ParameterQ.to_unsteady (p : ParameterQ) : ParameterQ :=
  match p.cache with
  | some v => ⟨v, none⟩
  | none => p

/-- Modelled from the spec (see `ParameterQ`): `Parameter::update(value)`
overwrites the parameter with the constant scalar. -/
def ParameterQ.update (p : ParameterQ) (v : ℚ) : ParameterQ :=
  ⟨ParamVal.const v, p.cache⟩

/-- Modelled from the spec (see `ParameterQ`): `Parameter::get(0.0)`. -/
def ParameterQ.get0 (p : ParameterQ) : ℚ :=
  match p.val with
  | .const v => v
  | .curve _ vs => vs.headD 0

/-- The block types distinguished by `Model::to_steady` (Model.cpp 253-254). -/
inductive BlockTypeQ where
  | WINDKESSELBC : BlockTypeQ
  | CLOSEDLOOPRCRBC : BlockTypeQ
  | OTHER : BlockTypeQ
deriving DecidableEq

/-- The per-block data `Model` reads: block type, steady flag, global parameter
ids, and the declared `num_triplets` counts for F, E and D. -/
structure BlockQ where
  btype : BlockTypeQ
  steady : Bool
  global_param_ids : List ℕ
  num_triplets_F : ℕ
  num_triplets_E : ℕ
  num_triplets_D : ℕ
deriving DecidableEq

def defaultBlock : BlockQ := ⟨BlockTypeQ.OTHER, false, [], 0, 0, 0⟩

/-- The `Model` state the claims are about.  `block_index_map` is the name-to-id
`std::map`; `param_value_cache` is the capacitance cache `std::map<int,double>`
(represented as an association list; a `std::map` has distinct keys and
`insert` never overwrites). -/
structure ModelQ where
  parameters : List ParameterQ
  blocks : List BlockQ
  hidden_blocks : List BlockQ
  param_value_cache : List (ℕ × ℚ)
  block_index_map : List (String × ℕ)
deriving DecidableEq

/-- `Model::get_block(int)` (Model.cpp 106-113): index into `blocks`, then into
`hidden_blocks` past the end.  `block_types[i]` is modelled as the type of this
block (the vectors agree when, as in the loaders, blocks are added before
hidden blocks). -/
def blockAt (m : ModelQ) (i : ℕ) : BlockQ :=
  if i < m.blocks.length then m.blocks.getD i defaultBlock
  else m.hidden_blocks.getD (i - m.blocks.length) defaultBlock

/-- Write the steady flag of block `i` (through `get_block(i)->steady = ...`). -/
def setSteadyAt (m : ModelQ) (i : ℕ) (v : Bool) : ModelQ :=
  if i < m.blocks.length then
    { m with blocks := m.blocks.set i { m.blocks.getD i defaultBlock with steady := v } }
  else
    { m with hidden_blocks :=
        (m.hidden_blocks.set (i - m.blocks.length)
          { m.hidden_blocks.getD (i - m.blocks.length) defaultBlock with steady := v }) }

/-- `std::map::insert`: no-op when the key is already present. -/
def insertIfAbsent (l : List (ℕ × ℚ)) (k : ℕ) (v : ℚ) : List (ℕ × ℚ) :=
  if l.any (fun kv => kv.1 = k) then l else l ++ [(k, v)]

/-- Body of the block loop of `Model::to_steady` (Model.cpp 251-260): set the
steady flag; for WINDKESSELBC/CLOSEDLOOPRCRBC blocks read the capacitance
parameter id (`global_param_ids[1]`), cache its current value at time 0, and
overwrite the parameter with 0. -/
def toSteadyBlockStep (acc : ModelQ) (i : ℕ) : ModelQ :=
  let b := blockAt acc i
  let acc1 := setSteadyAt acc i true
  if b.btype = BlockTypeQ.WINDKESSELBC ∨ b.btype = BlockTypeQ.CLOSEDLOOPRCRBC then
    let pid := b.global_param_ids.getD 1 0
    let v := (acc1.parameters.getD pid defaultParameter).get0
    { acc1 with
      param_value_cache := insertIfAbsent acc1.param_value_cache pid v,
      parameters := acc1.parameters.set pid
        ((acc1.parameters.getD pid defaultParameter).update 0) }
  else acc1

/-- `Model::to_steady` (Model.cpp 245-261): convert every parameter to steady,
then run the block loop over all blocks including hidden ones. -/
def Model.to_steady (m : ModelQ) : ModelQ :=
  let m1 := { m with parameters := m.parameters.map ParameterQ.to_steady }
  (List.range (m.blocks.length + m.hidden_blocks.length)).foldl toSteadyBlockStep m1

/-- `Model::to_unsteady` (Model.cpp 263-275): convert every parameter back,
re-apply every cached capacitance value via `Parameter::update`, then clear all
steady flags.  The cache itself is never cleared. -/
def Model.to_unsteady (m : ModelQ) : ModelQ :=
  let m1 := { m with parameters := m.parameters.map ParameterQ.to_unsteady }
  let m2 := { m1 with parameters :=
    (m.param_value_cache.foldl
      (fun ps kv => ps.set kv.1 ((ps.getD kv.1 defaultParameter).update kv.2)) m1.parameters) }
  (List.range (m.blocks.length + m.hidden_blocks.length)).foldl
    (fun acc i => setSteadyAt acc i false) m2

/-- `Model::get_num_triplets` (Model.cpp 277-289): starting from zeroes, add the
per-block triplet counts of the elements of `blocks` (and of `blocks` only). -/
def Model.get_num_triplets (m : ModelQ) : ℕ × ℕ × ℕ :=
  m.blocks.foldl
    (fun acc b => (acc.1 + b.num_triplets_F, acc.2.1 + b.num_triplets_E,
                   acc.2.2 + b.num_triplets_D)) (0, 0, 0)

/-- `std::map::operator[]`: return the mapped value if present; otherwise insert
the key with a value-initialized `int` (0) and return it. -/
def mapBracket (l : List (String × ℕ)) (k : String) : ℕ × List (String × ℕ) :=
  match l.lookup k with
  | some v => (v, l)
  | none => (0, l ++ [(k, 0)])

/-- `Model::get_block(std::string_view)` (Model.cpp 95-104): `nullptr` (none)
when the name is not in `block_index_map`; otherwise a pointer to
`blocks[block_index_map[name]]`. -/
def Model.get_block (m : ModelQ) (name : String) : Option BlockQ × ModelQ :=
  if (m.block_index_map.lookup name).isNone then (none, m)
  else
    let r := mapBracket m.block_index_map name
    (some (m.blocks.getD r.1 defaultBlock), { m with block_index_map := r.2 })

/-- `Model::get_block_type` (Model.cpp 115-124): throws when the name is not in
`block_index_map`; otherwise returns `block_types[block_index_map[name]]`. -/
def Model.get_block_type (m : ModelQ) (name : String) : Except String BlockTypeQ × ModelQ :=
  if (m.block_index_map.lookup name).isNone then
    (.error ("Could not find block with name " ++ name), m)
  else
    let r := mapBracket m.block_index_map name
    (.ok (blockAt m r.1).btype, { m with block_index_map := r.2 })

/-! ### Concrete fixtures used by counterexamples and witnesses -/

def vzero : Fin 1 → ℚ := fun _ => 0

def vone : Fin 1 → ℚ := fun _ => 1

/-- An integrator built with the solver's spectral radius rho = 0.1
(so alpha_m = 29/22, alpha_f = 10/11, gamma = 10/11). -/
def itgGA : IntegratorQ := mkIntegrator (1/10) 1 (1/100) 30

/-- A trivial oracle on system state `ℚ` (the state is its own residual), used
to instantiate `C4_newton_loop_semantics` at a concrete input. -/
def constOps : SysOps ℚ 1 :=
  ⟨fun s _ => s, fun s _ => s, fun s _ _ => s, fun s => s, fun s _ => s, fun s => s,
   fun _ => vzero⟩

/-- A system whose only nonzero entries are dE = 1 everywhere. -/
def sysDE : SparseSystemQ :=
  ⟨fun _ _ => 0, fun _ _ => 0, fun _ _ => 0, fun _ _ => 1, fun _ _ => 0,
   fun _ => 0, fun _ _ => 0, fun _ => 0, fun _ => 0⟩

/-- A run configuration requesting steady initialization with a
ClosedLoopHeartAndPulmonary ("CLH") block present: 11 points per cycle over
10 cycles (101 time steps), cardiac cycle period unset (-1). -/
def runInputClh : RunInput := ⟨true, true, false, 11, 101, 1/10, -1⟩

/-- A visible block declaring 3 F-triplets and 1 E-triplet. -/
def blockVisible : BlockQ := ⟨BlockTypeQ.OTHER, false, [], 3, 1, 0⟩

/-- A hidden block declaring 10 F-, 2 E- and 2 D-triplets (the footprint of one
internal blood vessel of a blood-vessel junction). -/
def blockHidden : BlockQ := ⟨BlockTypeQ.OTHER, false, [], 10, 2, 2⟩

/-- A model with one visible and one hidden block. -/
def modelWithHidden : ModelQ := ⟨[], [blockVisible], [blockHidden], [], []⟩

/-- The triplet totals over both visible and hidden blocks of a model. -/
def allBlocksTriplets (m : ModelQ) : ℕ × ℕ × ℕ :=
  (m.blocks ++ m.hidden_blocks).foldl
    (fun acc b => (acc.1 + b.num_triplets_F, acc.2.1 + b.num_triplets_E,
                   acc.2.2 + b.num_triplets_D)) (0, 0, 0)

/-- The empty model. -/
def emptyModel : ModelQ := ⟨[], [], [], [], []⟩

/-- Invariant maintained by the block loop of `Model::to_steady`, relative to
the pre-call model `m`: lengths are preserved; every block differs from its
original at most in the steady flag; every parameter is either its
steadied original or has been zeroed (in which case its id is cached); and
every cache entry holds the cycle mean of its original parameter and stems
from the capacitance id of some visible Windkessel/ClosedLoopRCR block. -/
def toSteadyInv (m acc : ModelQ) : Prop :=
  acc.parameters.length = m.parameters.length ∧
  acc.blocks.length = m.blocks.length ∧
  acc.hidden_blocks.length = m.hidden_blocks.length ∧
  (∀ j, blockAt acc j = { blockAt m j with steady := (blockAt acc j).steady }) ∧
  (∀ j, j < m.parameters.length →
    (acc.parameters.getD j defaultParameter =
        ParameterQ.to_steady (m.parameters.getD j defaultParameter) ∨
     (acc.parameters.getD j defaultParameter =
        ⟨ParamVal.const 0, some ((m.parameters.getD j defaultParameter).val)⟩ ∧
      acc.param_value_cache.any (fun kv => kv.1 = j) = true))) ∧
  (∀ kv ∈ acc.param_value_cache,
    kv.2 = meanVal ((m.parameters.getD kv.1 defaultParameter).val) ∧
    ∃ b, b ∈ m.blocks ∧
      (b.btype = BlockTypeQ.WINDKESSELBC ∨ b.btype = BlockTypeQ.CLOSEDLOOPRCRBC) ∧
      b.global_param_ids.getD 1 0 = kv.1)

/-- A model with a Windkessel boundary condition whose capacitance parameter
(id 1) is a time-dependent curve with samples 0 and 2 (cycle mean 1). -/
def modelWkCurve : ModelQ :=
  ⟨[⟨ParamVal.const 100, none⟩, ⟨ParamVal.curve [0, 1] [0, 2], none⟩],
   [⟨BlockTypeQ.WINDKESSELBC, false, [0, 1], 3, 1, 0⟩], [], [], []⟩

/-- A model with a Windkessel boundary condition whose capacitance parameter
(id 1) is a constant. -/
def modelWkConst : ModelQ :=
  ⟨[⟨ParamVal.const 100, none⟩, ⟨ParamVal.const (1/10000), none⟩],
   [⟨BlockTypeQ.WINDKESSELBC, false, [0, 1], 3, 1, 0⟩], [], [], []⟩

/-! ### Lemmas about the Newton loop -/

lemma newtonResid_zero {σ : Type} {n : ℕ} (itg : IntegratorQ) (ops : SysOps σ n)
    (s : (Fin n → ℚ) × (Fin n → ℚ) × σ) :
    newtonResid itg ops s 0 = ops.residual_maxabs (newtonPrep ops s).2.2 := rfl

lemma newtonResid_succ {σ : Type} {n : ℕ} (itg : IntegratorQ) (ops : SysOps σ n)
    (s : (Fin n → ℚ) × (Fin n → ℚ) × σ) (k : ℕ) :
    newtonResid itg ops s (k+1) =
      newtonResid itg ops (newtonIncr itg ops (newtonPrep ops s)) k := rfl

lemma newtonLoop_error_only_msg {σ : Type} {n : ℕ} (itg : IntegratorQ) (ops : SysOps σ n) :
    ∀ (nrem : ℕ) (s : (Fin n → ℚ) × (Fin n → ℚ) × σ) (msg : String),
      newtonLoop itg ops nrem s = .error msg → msg = newton_error_msg := by
  intro nrem
  induction nrem with
  | zero =>
    intro s msg h
    exact absurd h (by simp [newtonLoop])
  | succ m ih =>
    intro s msg h
    rw [newtonLoop] at h
    by_cases hr : ops.residual_maxabs (newtonPrep ops s).2.2 < itg.atol
    · rw [if_pos hr] at h
      exact absurd h (by simp)
    · rw [if_neg hr] at h
      by_cases hm : m = 0
      · rw [if_pos hm] at h
        exact (Except.error.injEq _ _ ▸ h).symm
      · rw [if_neg hm] at h
        exact ih _ _ h

lemma newtonLoop_eq_error_iff {σ : Type} {n : ℕ} (itg : IntegratorQ) (ops : SysOps σ n) :
    ∀ (nrem : ℕ) (s : (Fin n → ℚ) × (Fin n → ℚ) × σ),
      newtonLoop itg ops nrem s = .error newton_error_msg ↔
        1 ≤ nrem ∧ ∀ k < nrem, itg.atol ≤ newtonResid itg ops s k := by
  intro nrem
  induction nrem with
  | zero =>
    intro s
    simp [newtonLoop]
  | succ m ih =>
    intro s
    rw [newtonLoop]
    by_cases hr : ops.residual_maxabs (newtonPrep ops s).2.2 < itg.atol
    · rw [if_pos hr]
      constructor
      · intro h
        exact absurd h (by simp)
      · rintro ⟨-, hall⟩
        exact absurd (hall 0 (Nat.succ_pos m)) (not_le.mpr hr)
    · rw [if_neg hr]
      by_cases hm : m = 0
      · subst hm
        rw [if_pos rfl]
        constructor
        · intro _
          refine ⟨le_refl 1, ?_⟩
          intro k hk
          interval_cases k
          exact not_lt.mp hr
        · intro _
          rfl
      · rw [if_neg hm]
        rw [ih]
        constructor
        · rintro ⟨-, hall⟩
          refine ⟨Nat.succ_le_succ (Nat.zero_le m), ?_⟩
          intro k hk
          cases k with
          | zero => exact not_lt.mp hr
          | succ k' =>
            exact (newtonResid_succ itg ops s k') ▸ hall k' (Nat.lt_of_succ_lt_succ hk)
        · rintro ⟨-, hall⟩
          refine ⟨Nat.one_le_iff_ne_zero.mpr hm, ?_⟩
          intro k hk
          exact (newtonResid_succ itg ops s k).symm ▸ hall (k+1) (Nat.succ_lt_succ hk)

lemma newtonLoop_ok_first {σ : Type} {n : ℕ} (itg : IntegratorQ) (ops : SysOps σ n) :
    ∀ (k nrem : ℕ) (s : (Fin n → ℚ) × (Fin n → ℚ) × σ), k < nrem →
      (∀ j < k, itg.atol ≤ newtonResid itg ops s j) →
      newtonResid itg ops s k < itg.atol →
      newtonLoop itg ops nrem s = .ok (newtonPrep ops (newtonIterate itg ops k s)) := by
  intro k
  induction k with
  | zero =>
    intro nrem s hk _ hres
    obtain ⟨m, rfl⟩ : ∃ m, nrem = m + 1 := ⟨nrem - 1, (Nat.succ_pred_eq_of_pos hk).symm⟩
    have hres' : ops.residual_maxabs (newtonPrep ops s).2.2 < itg.atol := hres
    rw [newtonLoop, if_pos hres']
    rfl
  | succ k' ih =>
    intro nrem s hk hprev hres
    obtain ⟨m, rfl⟩ : ∃ m, nrem = m + 1 :=
      ⟨nrem - 1, (Nat.succ_pred_eq_of_pos (Nat.lt_of_le_of_lt (Nat.zero_le _) hk)).symm⟩
    have h0 : itg.atol ≤ newtonResid itg ops s 0 := hprev 0 (Nat.succ_pos k')
    have hm : m ≠ 0 := by omega
    have h0' : ¬ (ops.residual_maxabs (newtonPrep ops s).2.2 < itg.atol) := not_lt.mpr h0
    rw [newtonLoop, if_neg h0', if_neg hm]
    have := ih m (newtonIncr itg ops (newtonPrep ops s)) (by omega)
      (fun j hj => (newtonResid_succ itg ops s j) ▸ hprev (j+1) (Nat.succ_lt_succ hj))
      ((newtonResid_succ itg ops s k') ▸ hres)
    exact this

/-! ### Claim C4 -/

/-- C4.  In every call of `Integrator::step` (with at least one allowed
iteration): the step fails with the non-convergence error precisely when every
one of the `max_iter` residual checks sees a max-abs residual at or above
`atol`; if instead the `k`-th check is the first one below `atol`, the loop
breaks there and the step returns the corrector applied to the `k`-th Newton
iterate (success as soon as the residual is below `atol`); and the only failure
outcome is the error message, which carries no state. -/
theorem C4_newton_loop_semantics {σ : Type} {n : ℕ} (itg : IntegratorQ) (ops : SysOps σ n)
    (st : StateQ n) (time : ℚ) (sys : σ) (hmax : 1 ≤ itg.max_iter) :
    (Integrator.step itg ops st time sys = .error newton_error_msg ↔
      ∀ k < itg.max_iter, itg.atol ≤ newtonResid itg ops (stepInit itg ops st time sys) k)
    ∧ (∀ k < itg.max_iter,
        (∀ j < k, itg.atol ≤ newtonResid itg ops (stepInit itg ops st time sys) j) →
        newtonResid itg ops (stepInit itg ops st time sys) k < itg.atol →
        Integrator.step itg ops st time sys =
          .ok (⟨corrector_y itg st.y
                  (newtonIterate itg ops k (stepInit itg ops st time sys)).1,
                corrector_ydot itg st.ydot
                  (newtonIterate itg ops k (stepInit itg ops st time sys)).2.1⟩,
               (newtonPrep ops (newtonIterate itg ops k (stepInit itg ops st time sys))).2.2))
    ∧ (∀ msg, Integrator.step itg ops st time sys = .error msg → msg = newton_error_msg) := by
  have hstep : ∀ msg, Integrator.step itg ops st time sys = .error msg ↔
      newtonLoop itg ops itg.max_iter (stepInit itg ops st time sys) = .error msg := by
    intro msg
    unfold Integrator.step
    cases h : newtonLoop itg ops itg.max_iter (stepInit itg ops st time sys) with
    | error e => simp
    | ok s => simp
  refine ⟨?_, ?_, ?_⟩
  · rw [hstep, newtonLoop_eq_error_iff]
    exact and_iff_right hmax
  · intro k hk hprev hres
    unfold Integrator.step
    rw [newtonLoop_ok_first itg ops k itg.max_iter _ hk hprev hres]
    rfl
  · intro msg h
    exact newtonLoop_error_only_msg itg ops _ _ _ ((hstep msg).mp h)

/-- Witness for C4 at a concrete input: `itgGA` has `max_iter = 30 >= 1`, and a
system whose residual is constantly 0 < atol converges at the first check. -/
theorem C4_newton_loop_semantics_witness :
    1 ≤ itgGA.max_iter ∧
    ((Integrator.step itgGA constOps ⟨vzero, vzero⟩ 0 0 = .error newton_error_msg ↔
      ∀ k < itgGA.max_iter, itgGA.atol ≤ newtonResid itgGA constOps
        (stepInit itgGA constOps ⟨vzero, vzero⟩ 0 0) k)
    ∧ (∀ k < itgGA.max_iter,
        (∀ j < k, itgGA.atol ≤ newtonResid itgGA constOps
          (stepInit itgGA constOps ⟨vzero, vzero⟩ 0 0) j) →
        newtonResid itgGA constOps (stepInit itgGA constOps ⟨vzero, vzero⟩ 0 0) k
          < itgGA.atol →
        Integrator.step itgGA constOps ⟨vzero, vzero⟩ 0 0 =
          .ok (⟨corrector_y itgGA vzero
                  (newtonIterate itgGA constOps k
                    (stepInit itgGA constOps ⟨vzero, vzero⟩ 0 0)).1,
                corrector_ydot itgGA vzero
                  (newtonIterate itgGA constOps k
                    (stepInit itgGA constOps ⟨vzero, vzero⟩ 0 0)).2.1⟩,
               (newtonPrep constOps (newtonIterate itgGA constOps k
                  (stepInit itgGA constOps ⟨vzero, vzero⟩ 0 0))).2.2))
    ∧ (∀ msg, Integrator.step itgGA constOps ⟨vzero, vzero⟩ 0 0 = .error msg →
        msg = newton_error_msg)) :=
  ⟨Nat.one_le_iff_ne_zero.mpr (by simp [itgGA, mkIntegrator]),
   C4_newton_loop_semantics itgGA constOps ⟨vzero, vzero⟩ 0 0
     (Nat.one_le_iff_ne_zero.mpr (by simp [itgGA, mkIntegrator]))⟩

/-! ### Lemmas about sequences of `coeffRef` writes -/

lemma foldl_setF_fields (ws : List (ℕ × ℕ × ℚ)) (s : SparseSystemQ) :
    (ws.foldl (fun acc w => setF acc w.1 w.2.1 w.2.2) s).E = s.E ∧
    (ws.foldl (fun acc w => setF acc w.1 w.2.1 w.2.2) s).C = s.C ∧
    (ws.foldl (fun acc w => setF acc w.1 w.2.1 w.2.2) s).dE = s.dE ∧
    (ws.foldl (fun acc w => setF acc w.1 w.2.1 w.2.2) s).dF = s.dF ∧
    (ws.foldl (fun acc w => setF acc w.1 w.2.1 w.2.2) s).dC = s.dC := by
  induction ws generalizing s with
  | nil => exact ⟨rfl, rfl, rfl, rfl, rfl⟩
  | cons w ws ih => exact ih (setF s w.1 w.2.1 w.2.2)

lemma foldl_setF_unwritten (ws : List (ℕ × ℕ × ℚ)) (s : SparseSystemQ) (r c : ℕ)
    (h : ∀ w ∈ ws, ¬(w.1 = r ∧ w.2.1 = c)) :
    (ws.foldl (fun acc w => setF acc w.1 w.2.1 w.2.2) s).F r c = s.F r c := by
  induction ws generalizing s with
  | nil => rfl
  | cons w ws ih =>
    rw [List.foldl_cons, ih _ (fun w' hw' => h w' (List.mem_cons_of_mem _ hw'))]
    have hw := h w (List.mem_cons_self _ _)
    simp only [setF]
    rw [if_neg (fun hc => hw ⟨hc.1.symm, hc.2.symm⟩)]

lemma foldl_setF_written (ws : List (ℕ × ℕ × ℚ)) (s : SparseSystemQ) (r c : ℕ) (v : ℚ)
    (hmem : (r, c, v) ∈ ws)
    (huni : ∀ w ∈ ws, w.1 = r → w.2.1 = c → w.2.2 = v) :
    (ws.foldl (fun acc w => setF acc w.1 w.2.1 w.2.2) s).F r c = v := by
  induction ws generalizing s with
  | nil => cases hmem
  | cons w ws ih =>
    rw [List.foldl_cons]
    by_cases hmem' : (r, c, v) ∈ ws
    · exact ih _ hmem' (fun w' hw' => huni w' (List.mem_cons_of_mem _ hw'))
    · rcases List.mem_cons.mp hmem with heq | hmem2
      · have hnone : ∀ w' ∈ ws, ¬(w'.1 = r ∧ w'.2.1 = c) := by
          rintro ⟨a, b, vv⟩ hw' ⟨h1, h2⟩
          have hv := huni (a, b, vv) (List.mem_cons_of_mem _ hw') h1 h2
          simp only at h1 h2 hv
          subst h1; subst h2; subst hv
          exact hmem' hw'
        rw [foldl_setF_unwritten ws _ r c hnone, ← heq]
        simp [setF]
      · exact absurd hmem2 hmem'

/-! ### Lemmas about `Model::to_steady` / `Model::to_unsteady` -/

lemma getD_set_self {α : Type} (l : List α) (i : ℕ) (x d : α) (h : i < l.length) :
    (l.set i x).getD i d = x := by
  rw [List.getD_eq_getElem _ _ (by simpa using h)]
  exact List.getElem_set_self _

lemma getD_set_ne {α : Type} (l : List α) (i j : ℕ) (x d : α) (h : j ≠ i) :
    (l.set i x).getD j d = l.getD j d := by
  rw [List.getD_eq_getElem?_getD, List.getD_eq_getElem?_getD,
    List.getElem?_set_ne (fun hh => h hh.symm)]

lemma getD_map_param (f : ParameterQ → ParameterQ) (l : List ParameterQ) (j : ℕ)
    (d d2 : ParameterQ) (h : j < l.length) : (l.map f).getD j d = f (l.getD j d2) := by
  rw [List.getD_eq_getElem _ _ (by simpa using h), List.getD_eq_getElem _ _ h]
  simp

lemma setSteadyAt_parameters (m : ModelQ) (i : ℕ) (v : Bool) :
    (setSteadyAt m i v).parameters = m.parameters := by
  unfold setSteadyAt
  split <;> rfl

lemma setSteadyAt_cache (m : ModelQ) (i : ℕ) (v : Bool) :
    (setSteadyAt m i v).param_value_cache = m.param_value_cache := by
  unfold setSteadyAt
  split <;> rfl

lemma setSteadyAt_blocks_length (m : ModelQ) (i : ℕ) (v : Bool) :
    (setSteadyAt m i v).blocks.length = m.blocks.length ∧
    (setSteadyAt m i v).hidden_blocks.length = m.hidden_blocks.length := by
  unfold setSteadyAt
  split <;> simp

lemma blockAt_setSteadyAt (m : ModelQ) (i : ℕ) (v : Bool) (j : ℕ)
    (hi : i < m.blocks.length + m.hidden_blocks.length) :
    blockAt (setSteadyAt m i v) j =
      if j = i then { blockAt m i with steady := v } else blockAt m j := by
  unfold setSteadyAt blockAt
  by_cases hib : i < m.blocks.length
  · rw [if_pos hib]
    simp only [List.length_set]
    by_cases hji : j = i
    · subst hji
      rw [if_pos hib, if_pos hib, getD_set_self _ _ _ _ hib, if_pos rfl]
    · rw [if_neg hji]
      by_cases hjb : j < m.blocks.length
      · rw [if_pos hjb, if_pos hjb, getD_set_ne _ _ _ _ _ hji]
      · rw [if_neg hjb, if_neg hjb]
  · rw [if_neg hib]
    have hih : i - m.blocks.length < m.hidden_blocks.length := by omega
    simp only [List.length_set]
    by_cases hji : j = i
    · subst hji
      rw [if_neg hib, if_neg hib, getD_set_self _ _ _ _ hih, if_pos rfl]
    · by_cases hjb : j < m.blocks.length
      · rw [if_pos hjb, if_neg hji, if_pos hjb]
      · rw [if_neg hjb, if_neg hji, if_neg hjb,
          getD_set_ne _ _ _ _ _ (fun hc => hji (by omega))]

lemma insertIfAbsent_any_mono (l : List (ℕ × ℚ)) (k : ℕ) (v : ℚ) (p : ℕ × ℚ → Bool)
    (h : l.any p = true) : (insertIfAbsent l k v).any p = true := by
  unfold insertIfAbsent
  split
  · exact h
  · simp [List.any_append, h]

lemma insertIfAbsent_any_self (l : List (ℕ × ℚ)) (k : ℕ) (v : ℚ) :
    (insertIfAbsent l k v).any (fun kv => kv.1 = k) = true := by
  unfold insertIfAbsent
  split
  · assumption
  · simp

lemma mem_insertIfAbsent (l : List (ℕ × ℚ)) (k : ℕ) (v : ℚ) (w : ℕ × ℚ)
    (h : w ∈ insertIfAbsent l k v) :
    w ∈ l ∨ (w = (k, v) ∧ l.any (fun kv => kv.1 = k) = false) := by
  unfold insertIfAbsent at h
  by_cases hc : l.any (fun kv => kv.1 = k) = true
  · rw [if_pos hc] at h
    exact Or.inl h
  · rw [if_neg hc] at h
    rcases List.mem_append.mp h with h1 | h2
    · exact Or.inl h1
    · exact Or.inr ⟨by simpa using h2, Bool.not_eq_true _ ▸ hc⟩

lemma param_round_trip (p : ParameterQ) :
    ParameterQ.to_unsteady (ParameterQ.to_steady p) = ⟨p.val, none⟩ := rfl

lemma param_unsteady_of_cached (v0 : ParamVal) (c : ParamVal) :
    ParameterQ.to_unsteady ⟨v0, some c⟩ = ⟨c, none⟩ := rfl

lemma block_override (b : BlockQ) (s v : Bool) :
    ({ { b with steady := s } with steady := v } : BlockQ) = { b with steady := v } := rfl

lemma block_set_false_self (b : BlockQ) (h : b.steady = false) :
    ({ b with steady := false } : BlockQ) = b := by
  obtain ⟨bt, s, ids, f, e, d⟩ := b
  simp only at h
  subst h
  rfl

lemma clear_flags_fold (rng : List ℕ) :
    ∀ (acc : ModelQ), (∀ i ∈ rng, i < acc.blocks.length + acc.hidden_blocks.length) →
    (rng.foldl (fun a i => setSteadyAt a i false) acc).parameters = acc.parameters ∧
    (rng.foldl (fun a i => setSteadyAt a i false) acc).blocks.length = acc.blocks.length ∧
    (rng.foldl (fun a i => setSteadyAt a i false) acc).hidden_blocks.length =
      acc.hidden_blocks.length ∧
    (∀ j, blockAt (rng.foldl (fun a i => setSteadyAt a i false) acc) j =
       if j ∈ rng then { blockAt acc j with steady := false } else blockAt acc j) := by
  induction rng with
  | nil =>
    intro acc _
    refine ⟨rfl, rfl, rfl, ?_⟩
    intro j
    simp
  | cons i rng ih =>
    intro acc hb
    have hi : i < acc.blocks.length + acc.hidden_blocks.length :=
      hb i (List.mem_cons_self _ _)
    have hlen := setSteadyAt_blocks_length acc i false
    have hb' : ∀ i' ∈ rng, i' < (setSteadyAt acc i false).blocks.length +
        (setSteadyAt acc i false).hidden_blocks.length := by
      intro i' hi'
      rw [hlen.1, hlen.2]
      exact hb i' (List.mem_cons_of_mem _ hi')
    obtain ⟨hp, hbl, hhl, hba⟩ := ih (setSteadyAt acc i false) hb'
    rw [List.foldl_cons]
    refine ⟨hp.trans (setSteadyAt_parameters acc i false),
      hbl.trans hlen.1, hhl.trans hlen.2, ?_⟩
    intro j
    rw [hba j, blockAt_setSteadyAt acc i false j hi]
    by_cases hjr : j ∈ rng
    · rw [if_pos hjr, if_pos (List.mem_cons_of_mem _ hjr)]
      by_cases hji : j = i
      · subst hji
        rw [if_pos rfl, block_override]
      · rw [if_neg hji]
    · rw [if_neg hjr]
      by_cases hji : j = i
      · subst hji
        rw [if_pos rfl, if_pos (List.mem_cons_self _ _)]
      · rw [if_neg hji, if_neg (fun hc => (List.mem_cons.mp hc).elim hji hjr)]

lemma toSteadyInv_base (m : ModelQ) (hcache : m.param_value_cache = []) :
    toSteadyInv m { m with parameters := m.parameters.map ParameterQ.to_steady } := by
  refine ⟨by simp, rfl, rfl, ?_, ?_, ?_⟩
  · intro j
    rfl
  · intro j hj
    left
    exact getD_map_param ParameterQ.to_steady m.parameters j _ _ hj
  · intro kv hkv
    have hc : ({ m with parameters := m.parameters.map ParameterQ.to_steady } :
        ModelQ).param_value_cache = m.param_value_cache := rfl
    rw [hc, hcache] at hkv
    cases hkv

lemma toSteadyInv_step (m : ModelQ)
    (hhid : ∀ b ∈ m.hidden_blocks, b.btype = BlockTypeQ.OTHER)
    (acc : ModelQ) (hinv : toSteadyInv m acc) (i : ℕ)
    (hi : i < m.blocks.length + m.hidden_blocks.length) :
    toSteadyInv m (toSteadyBlockStep acc i) := by
  obtain ⟨hplen, hblen, hhlen, hba, hpar, hcache⟩ := hinv
  have hi' : i < acc.blocks.length + acc.hidden_blocks.length := by
    rw [hblen, hhlen]; exact hi
  have hba1 : ∀ j, blockAt (setSteadyAt acc i true) j =
      if j = i then { blockAt acc i with steady := true } else blockAt acc j :=
    fun j => blockAt_setSteadyAt acc i true j hi'
  have hlen1 := setSteadyAt_blocks_length acc i true
  have hpar1 : (setSteadyAt acc i true).parameters = acc.parameters :=
    setSteadyAt_parameters acc i true
  have hcache1 : (setSteadyAt acc i true).param_value_cache = acc.param_value_cache :=
    setSteadyAt_cache acc i true
  simp only [toSteadyBlockStep]
  rw [hpar1, hcache1]
  by_cases hbt : (blockAt acc i).btype = BlockTypeQ.WINDKESSELBC ∨
      (blockAt acc i).btype = BlockTypeQ.CLOSEDLOOPRCRBC
  · rw [if_pos hbt]
    refine ⟨?_, ?_, ?_, ?_, ?_, ?_⟩
    · show (acc.parameters.set _ _).length = m.parameters.length
      rw [List.length_set]
      exact hplen
    · show (setSteadyAt acc i true).blocks.length = m.blocks.length
      rw [hlen1.1]
      exact hblen
    · show (setSteadyAt acc i true).hidden_blocks.length = m.hidden_blocks.length
      rw [hlen1.2]
      exact hhlen
    · intro j
      show blockAt (setSteadyAt acc i true) j =
        { blockAt m j with steady := (blockAt (setSteadyAt acc i true) j).steady }
      rw [hba1 j]
      by_cases hji : j = i
      · subst hji
        rw [if_pos rfl, hba j, block_override]
      · rw [if_neg hji]
        exact hba j
    · intro j hj
      set pid := (blockAt acc i).global_param_ids.getD 1 0 with hpid
      show (acc.parameters.set pid
            ((acc.parameters.getD pid defaultParameter).update 0)).getD j defaultParameter =
          ParameterQ.to_steady (m.parameters.getD j defaultParameter) ∨
        ((acc.parameters.set pid
            ((acc.parameters.getD pid defaultParameter).update 0)).getD j defaultParameter =
          ⟨ParamVal.const 0, some ((m.parameters.getD j defaultParameter).val)⟩ ∧
         (insertIfAbsent acc.param_value_cache pid
            ((acc.parameters.getD pid defaultParameter).get0)).any
              (fun kv => kv.1 = j) = true)
      by_cases hjp : j = pid
      · rw [hjp] at hj ⊢
        right
        constructor
        · rw [getD_set_self _ _ _ _ (by omega : pid < acc.parameters.length)]
          rcases hpar pid hj with hL | ⟨hR, hA⟩
          · rw [hL]; rfl
          · rw [hR]; rfl
        · exact insertIfAbsent_any_self _ _ _
      · rw [getD_set_ne _ _ _ _ _ hjp]
        rcases hpar j hj with hL | ⟨hR, hA⟩
        · exact Or.inl hL
        · exact Or.inr ⟨hR, insertIfAbsent_any_mono _ _ _ _ hA⟩
    · intro kv hkv
      set pid := (blockAt acc i).global_param_ids.getD 1 0 with hpid
      have hkv' : kv ∈ insertIfAbsent acc.param_value_cache pid
          ((acc.parameters.getD pid defaultParameter).get0) := hkv
      rcases mem_insertIfAbsent _ _ _ _ hkv' with hold | ⟨hkveq, habs⟩
      · exact hcache kv hold
      · subst hkveq
        constructor
        · show (acc.parameters.getD pid defaultParameter).get0 =
            meanVal ((m.parameters.getD pid defaultParameter).val)
          by_cases hplt : pid < m.parameters.length
          · rcases hpar pid hplt with hL | ⟨hR, hA⟩
            · rw [hL]; rfl
            · rw [habs] at hA
              cases hA
          · rw [List.getD_eq_default _ _ (by omega : acc.parameters.length ≤ pid),
              List.getD_eq_default _ _ (by omega : m.parameters.length ≤ pid)]
            rfl
        · have hbi : (blockAt acc i).btype = (blockAt m i).btype := by rw [hba i]
          have hids : (blockAt acc i).global_param_ids =
              (blockAt m i).global_param_ids := by rw [hba i]
          by_cases hib : i < m.blocks.length
          · refine ⟨blockAt m i, ?_, ?_, ?_⟩
            · show blockAt m i ∈ m.blocks
              unfold blockAt
              rw [if_pos hib, List.getD_eq_getElem _ _ hib]
              exact List.getElem_mem _
            · rw [← hbi]
              exact hbt
            · show (blockAt m i).global_param_ids.getD 1 0 = pid
              rw [← hids]
          · exfalso
            have hih : i - m.blocks.length < m.hidden_blocks.length := by omega
            have hat : blockAt m i =
                m.hidden_blocks.getD (i - m.blocks.length) defaultBlock := by
              unfold blockAt
              rw [if_neg hib]
            have hmem : m.hidden_blocks.getD (i - m.blocks.length) defaultBlock ∈
                m.hidden_blocks := by
              rw [List.getD_eq_getElem _ _ hih]
              exact List.getElem_mem _
            have hO := hhid _ hmem
            rw [hbi, hat, hO] at hbt
            rcases hbt with h | h <;> cases h
  · rw [if_neg hbt]
    refine ⟨?_, ?_, ?_, ?_, ?_, ?_⟩
    · rw [hpar1]; exact hplen
    · rw [hlen1.1]; exact hblen
    · rw [hlen1.2]; exact hhlen
    · intro j
      rw [hba1 j]
      by_cases hji : j = i
      · subst hji
        rw [if_pos rfl, hba j]
      · rw [if_neg hji]
        exact hba j
    · intro j hj
      rw [hpar1, hcache1]
      exact hpar j hj
    · intro kv hkv
      rw [hcache1] at hkv
      exact hcache kv hkv

lemma toSteadyInv_steady (m : ModelQ) (hfresh : m.param_value_cache = [])
    (hhid : ∀ b ∈ m.hidden_blocks, b.btype = BlockTypeQ.OTHER) :
    toSteadyInv m (Model.to_steady m) := by
  unfold Model.to_steady
  refine List.foldlRecOn _ _ _ (toSteadyInv_base m hfresh) ?_
  intro acc hacc i hi
  exact toSteadyInv_step m hhid acc hacc i (List.mem_range.mp hi)

/-! ### Claim C1 -/

/-- C1.  The claim states that the corrector computes
`y_{n+1} = y_n + (y_af - y_n) / alpha_f` and
`ydot_{n+1} = ydot_n + (ydot_am - ydot_n) / alpha_m`.  The ydot half holds, but
for the y half the source (integrator.hpp line 168 together with
`alpha_f_inv = alpha_f / 1.0` at line 94) multiplies by `alpha_f` instead of
dividing: at rho = 0.1, y_n = 0, y_af = 1 the code yields 10/11 while the
documented formula (Integrator.h lines 96-104) yields 11/10. -/
theorem C1_corrector_y_multiplies_alpha_f :
    corrector_y itgGA vzero vone 0 = 10/11 ∧
    vzero 0 + (vone 0 - vzero 0) / itgGA.alpha_f = 11/10 ∧
    corrector_y itgGA vzero vone 0 ≠ vzero 0 + (vone 0 - vzero 0) / itgGA.alpha_f ∧
    corrector_ydot itgGA vzero vone 0 = vzero 0 + (vone 0 - vzero 0) / itgGA.alpha_m := by
  refine ⟨?_, ?_, ?_, ?_⟩ <;>
    norm_num [corrector_y, corrector_ydot, itgGA, mkIntegrator, vzero, vone,
      Pi.add_apply, Pi.smul_apply, Pi.sub_apply, smul_eq_mul]

/-! ### Claim C2 -/

/-- C2 counterexample.  The claim states
`jacobian = F + dF + dC + (E + dE) * e_coeff`; on a system whose only nonzero
entries are `dE = 1` and with `e_coeff = 2`, the code (system.hpp lines 62-66
and 135-139) produces entry 1 while the claimed formula gives 2. -/
theorem C2_counterexample_dE_not_scaled :
    (sysDE.update_jacobian 2).jacobian 0 0 = 1 ∧
    sysDE.F 0 0 + sysDE.dF 0 0 + sysDE.dC 0 0 + (sysDE.E 0 0 + sysDE.dE 0 0) * 2 = 2 ∧
    (sysDE.update_jacobian 2).jacobian 0 0 ≠
      sysDE.F 0 0 + sysDE.dF 0 0 + sysDE.dC 0 0 + (sysDE.E 0 0 + sysDE.dE 0 0) * 2 := by
  refine ⟨?_, ?_, ?_⟩ <;> norm_num [SparseSystemQ.update_jacobian, sysDE]

/-- C2 amended.  `update_jacobian(e_coeff)` computes
`jacobian = F + dF + dC + dE + E * e_coeff`: only `E` is scaled by `e_coeff`,
while `dE` is added unscaled; no other member of the system changes. -/
theorem C2_update_jacobian_dE_unscaled (s : SparseSystemQ) (e_coeff : ℚ) (i j : ℕ) :
    (s.update_jacobian e_coeff).jacobian i j =
      s.F i j + s.dF i j + s.dC i j + s.dE i j + s.E i j * e_coeff ∧
    (s.update_jacobian e_coeff).F = s.F ∧ (s.update_jacobian e_coeff).E = s.E ∧
    (s.update_jacobian e_coeff).dF = s.dF ∧ (s.update_jacobian e_coeff).dE = s.dE ∧
    (s.update_jacobian e_coeff).dC = s.dC ∧ (s.update_jacobian e_coeff).C = s.C ∧
    (s.update_jacobian e_coeff).residual = s.residual := by
  refine ⟨?_, rfl, rfl, rfl, rfl, rfl, rfl, rfl⟩
  show s.F i j + s.dE i j + s.dF i j + s.dC i j + s.E i j * e_coeff = _
  ring

/-! ### Claim C3 -/

/-- C3 counterexample.  The claim states the predictor is
`ydot0 = ydot_n * (gamma - 1) / gamma`; the source (integrator.hpp line 126)
computes `ydot_n * (gamma - 0.5) * gamma_inv`.  At rho = 0.1 (gamma = 10/11)
and ydot_n = 1 the code yields 9/20 while the claimed formula yields -1/10. -/
theorem C3_counterexample_predictor_ydot :
    predictor_ydot itgGA vone 0 = 9/20 ∧
    vone 0 * (itgGA.gamma - 1) / itgGA.gamma = -1/10 ∧
    predictor_ydot itgGA vone 0 ≠ vone 0 * (itgGA.gamma - 1) / itgGA.gamma := by
  refine ⟨?_, ?_, ?_⟩ <;>
    norm_num [predictor_ydot, itgGA, mkIntegrator, vone, Pi.smul_apply, smul_eq_mul]

/-- C3 amended.  The predictor produces `y0 = y_n + (dt/2) * ydot_n` (as
claimed) and `ydot0 = ydot_n * (gamma - 1/2) / gamma` (not `(gamma - 1)/gamma`),
for integrators built by the constructor. -/
theorem C3_predictor_formulas (rho dt atol : ℚ) (mi : ℕ) {n : ℕ}
    (y ydot : Fin n → ℚ) (i : Fin n) :
    predictor_y (mkIntegrator rho dt atol mi) y ydot i = y i + dt / 2 * ydot i ∧
    predictor_ydot (mkIntegrator rho dt atol mi) ydot i =
      ydot i * ((mkIntegrator rho dt atol mi).gamma - 1/2)
        / (mkIntegrator rho dt atol mi).gamma := by
  constructor
  · show y i + (1/2 * dt) * ydot i = _
    ring
  · show ((mkIntegrator rho dt atol mi).gamma - 1/2)
        * (1 / (mkIntegrator rho dt atol mi).gamma) * ydot i = _
    rw [div_eq_mul_inv, one_div]
    ring

/-! ### Claim C6 -/

/-- C6.  For a junction with `ni` inlets and `no` outlets (distinct equation
ids, distinct variable ids), `Junction::update_constant` writes only into `F`:
`ni + no - 1` pressure rows with `+1` on the first inlet pressure DOF
(`global_var_ids[0]`) and `-1` on the pressure DOF of each other node
(`global_var_ids[2i+2]`), and one mass row with `+1` on each inlet flow DOF
(`global_var_ids[2k+1]`, `k < ni`) and `-1` on each outlet flow DOF
(`global_var_ids[2(ni+k)+1]`, `k < no`); rows of `F` outside the junction's
equation ids are untouched, and `E`, `C`, `dE`, `dF`, `dC` are unchanged. -/
theorem C6_junction_update_constant (ni no : ℕ) (eqn var : ℕ → ℕ) (s : SparseSystemQ)
    (hni : 1 ≤ ni) (hno : 1 ≤ no)
    (heqn : ∀ a < ni + no, ∀ b < ni + no, eqn a = eqn b → a = b)
    (hvar : ∀ a < 2 * (ni + no), ∀ b < 2 * (ni + no), var a = var b → a = b) :
    (∀ i < ni + no - 1,
      (Junction.update_constant ⟨ni, no, eqn, var⟩ s).F (eqn i) (var 0) = 1) ∧
    (∀ i < ni + no - 1,
      (Junction.update_constant ⟨ni, no, eqn, var⟩ s).F (eqn i) (var (2*i + 2)) = -1) ∧
    (∀ k < ni,
      (Junction.update_constant ⟨ni, no, eqn, var⟩ s).F (eqn (ni + no - 1))
        (var (2*k + 1)) = 1) ∧
    (∀ k < no,
      (Junction.update_constant ⟨ni, no, eqn, var⟩ s).F (eqn (ni + no - 1))
        (var (2*(ni + k) + 1)) = -1) ∧
    (∀ r c, (∀ i < ni + no, r ≠ eqn i) →
      (Junction.update_constant ⟨ni, no, eqn, var⟩ s).F r c = s.F r c) ∧
    (Junction.update_constant ⟨ni, no, eqn, var⟩ s).E = s.E ∧
    (Junction.update_constant ⟨ni, no, eqn, var⟩ s).C = s.C ∧
    (Junction.update_constant ⟨ni, no, eqn, var⟩ s).dE = s.dE ∧
    (Junction.update_constant ⟨ni, no, eqn, var⟩ s).dF = s.dF ∧
    (Junction.update_constant ⟨ni, no, eqn, var⟩ s).dC = s.dC := by
  obtain ⟨hE, hC, hdE, hdF, hdC⟩ :=
    foldl_setF_fields (junctionWrites ⟨ni, no, eqn, var⟩) s
  refine ⟨?_, ?_, ?_, ?_, ?_, hE, hC, hdE, hdF, hdC⟩
  · intro i hi
    apply foldl_setF_written
    · refine List.mem_append_left _ (List.mem_append_left _ ?_)
      exact List.mem_flatMap.mpr ⟨i, List.mem_range.mpr hi, by simp⟩
    · intro w hw h1 h2
      simp only [junctionWrites, List.mem_append, List.mem_flatMap, List.mem_map,
        List.mem_range, List.mem_cons, List.not_mem_nil, or_false] at hw
      rcases hw with (⟨i', hi', hc | hc⟩ | ⟨k, hk, hc⟩) | ⟨k, hk, hc⟩
      · subst hc; rfl
      · subst hc
        exfalso
        have := hvar (2*i' + 2) (by omega) 0 (by omega) h2
        omega
      · subst hc; rfl
      · subst hc
        exfalso
        have := heqn (ni + no - 1) (by omega) i (by omega) h1
        omega
  · intro i hi
    apply foldl_setF_written
    · refine List.mem_append_left _ (List.mem_append_left _ ?_)
      exact List.mem_flatMap.mpr ⟨i, List.mem_range.mpr hi, by simp⟩
    · intro w hw h1 h2
      simp only [junctionWrites, List.mem_append, List.mem_flatMap, List.mem_map,
        List.mem_range, List.mem_cons, List.not_mem_nil, or_false] at hw
      rcases hw with (⟨i', hi', hc | hc⟩ | ⟨k, hk, hc⟩) | ⟨k, hk, hc⟩
      · subst hc
        exfalso
        have := hvar 0 (by omega) (2*i + 2) (by omega) h2
        omega
      · subst hc; rfl
      · subst hc
        exfalso
        have := heqn (ni + no - 1) (by omega) i (by omega) h1
        omega
      · subst hc; rfl
  · intro k0 hk0
    apply foldl_setF_written
    · refine List.mem_append_left _ (List.mem_append_right _ ?_)
      exact List.mem_map.mpr ⟨k0, List.mem_range.mpr hk0, rfl⟩
    · intro w hw h1 h2
      simp only [junctionWrites, List.mem_append, List.mem_flatMap, List.mem_map,
        List.mem_range, List.mem_cons, List.not_mem_nil, or_false] at hw
      rcases hw with (⟨i', hi', hc | hc⟩ | ⟨k, hk, hc⟩) | ⟨k, hk, hc⟩
      · subst hc; rfl
      · subst hc
        exfalso
        have := heqn i' (by omega) (ni + no - 1) (by omega) h1
        omega
      · subst hc; rfl
      · subst hc
        exfalso
        have := hvar (2*(ni + k) + 1) (by omega) (2*k0 + 1) (by omega) h2
        omega
  · intro k0 hk0
    apply foldl_setF_written
    · refine List.mem_append_right _ ?_
      exact List.mem_map.mpr ⟨k0, List.mem_range.mpr hk0, rfl⟩
    · intro w hw h1 h2
      simp only [junctionWrites, List.mem_append, List.mem_flatMap, List.mem_map,
        List.mem_range, List.mem_cons, List.not_mem_nil, or_false] at hw
      rcases hw with (⟨i', hi', hc | hc⟩ | ⟨k, hk, hc⟩) | ⟨k, hk, hc⟩
      · subst hc
        exfalso
        have := hvar 0 (by omega) (2*(ni + k0) + 1) (by omega) h2
        omega
      · subst hc; rfl
      · subst hc
        exfalso
        have := hvar (2*k + 1) (by omega) (2*(ni + k0) + 1) (by omega) h2
        omega
      · subst hc; rfl
  · intro r c hr
    apply foldl_setF_unwritten
    intro w hw
    simp only [junctionWrites, List.mem_append, List.mem_flatMap, List.mem_map,
      List.mem_range, List.mem_cons, List.not_mem_nil, or_false] at hw
    rcases hw with (⟨i', hi', hc | hc⟩ | ⟨k, hk, hc⟩) | ⟨k, hk, hc⟩ <;> subst hc <;>
      rintro ⟨h1, -⟩
    · exact hr i' (by omega) h1.symm
    · exact hr i' (by omega) h1.symm
    · exact hr (ni + no - 1) (by omega) h1.symm
    · exact hr (ni + no - 1) (by omega) h1.symm

/-- Witness for C6: a junction with one inlet and one outlet, identity id maps,
on the zero-free system `sysDE`. -/
theorem C6_junction_update_constant_witness :
    (1 ≤ 1 ∧ (∀ a < 1 + 1, ∀ b < 1 + 1, a = b → a = b) ∧
      (∀ a < 2 * (1 + 1), ∀ b < 2 * (1 + 1), a = b → a = b)) ∧
    ((∀ i < 1 + 1 - 1,
      (Junction.update_constant ⟨1, 1, id, id⟩ sysDE).F (id i) (id 0) = 1) ∧
    (∀ i < 1 + 1 - 1,
      (Junction.update_constant ⟨1, 1, id, id⟩ sysDE).F (id i) (id (2*i + 2)) = -1) ∧
    (∀ k < 1,
      (Junction.update_constant ⟨1, 1, id, id⟩ sysDE).F (id (1 + 1 - 1))
        (id (2*k + 1)) = 1) ∧
    (∀ k < 1,
      (Junction.update_constant ⟨1, 1, id, id⟩ sysDE).F (id (1 + 1 - 1))
        (id (2*(1 + k) + 1)) = -1) ∧
    (∀ r c, (∀ i < 1 + 1, r ≠ id i) →
      (Junction.update_constant ⟨1, 1, id, id⟩ sysDE).F r c = sysDE.F r c) ∧
    (Junction.update_constant ⟨1, 1, id, id⟩ sysDE).E = sysDE.E ∧
    (Junction.update_constant ⟨1, 1, id, id⟩ sysDE).C = sysDE.C ∧
    (Junction.update_constant ⟨1, 1, id, id⟩ sysDE).dE = sysDE.dE ∧
    (Junction.update_constant ⟨1, 1, id, id⟩ sysDE).dF = sysDE.dF ∧
    (Junction.update_constant ⟨1, 1, id, id⟩ sysDE).dC = sysDE.dC) :=
  ⟨⟨le_refl 1, fun _ _ _ _ h => h, fun _ _ _ _ h => h⟩,
   C6_junction_update_constant 1 1 id id sysDE (le_refl 1) (le_refl 1)
     (fun _ _ _ _ h => h) (fun _ _ _ _ h => h)⟩

/-! ### Claim C7 -/

/-- C7 counterexample.  The claim states `to_steady(); to_unsteady();` restores
every parameter exactly.  On a model whose Windkessel capacitance parameter is
a time-dependent curve with values 0 and 2, the round trip leaves the parameter
a constant 1 (its cycle mean): `Model::to_unsteady` re-applies the cached value
through `Parameter::update` after the curves have already been restored
(Model.cpp lines 263-275). -/
theorem C7_counterexample_curve_capacitance :
    ((Model.to_unsteady (Model.to_steady modelWkCurve)).parameters.getD 1
        defaultParameter).val = ParamVal.const 1 ∧
    (modelWkCurve.parameters.getD 1 defaultParameter).val = ParamVal.curve [0, 1] [0, 2] ∧
    Model.to_unsteady (Model.to_steady modelWkCurve) ≠ modelWkCurve := by
  have h1 : ((Model.to_unsteady (Model.to_steady modelWkCurve)).parameters.getD 1
      defaultParameter).val = ParamVal.const 1 := by
    show ((Model.to_unsteady (Model.to_steady modelWkCurve)).parameters.getD 1
      defaultParameter).val = ParamVal.const 1
    norm_num [Model.to_steady, Model.to_unsteady, modelWkCurve, toSteadyBlockStep,
      blockAt, setSteadyAt, insertIfAbsent, ParameterQ.to_steady, ParameterQ.to_unsteady,
      ParameterQ.update, ParameterQ.get0, meanVal, defaultBlock, defaultParameter,
      List.range_succ]
  refine ⟨h1, rfl, ?_⟩
  intro h
  rw [h] at h1
  exact ParamVal.noConfusion h1

/-- C7 amended.  For a model in its pre-steady state (all steady flags false,
capacitance cache empty, hidden blocks are plain internal blocks) whose
Windkessel/ClosedLoopRCR capacitance parameters are constant (scalar)
parameters, `to_steady(); to_unsteady();` restores every parameter value and
every block (visible and hidden) exactly. -/
theorem C7_round_trip_conditional (m : ModelQ)
    (hflags : ∀ b ∈ m.blocks ++ m.hidden_blocks, b.steady = false)
    (hhid : ∀ b ∈ m.hidden_blocks, b.btype = BlockTypeQ.OTHER)
    (hfresh : m.param_value_cache = [])
    (hcap : ∀ b ∈ m.blocks,
      (b.btype = BlockTypeQ.WINDKESSELBC ∨ b.btype = BlockTypeQ.CLOSEDLOOPRCRBC) →
      ∃ cv, (m.parameters.getD (b.global_param_ids.getD 1 0) defaultParameter).val =
        ParamVal.const cv) :
    (Model.to_unsteady (Model.to_steady m)).parameters.map (fun p => p.val) =
      m.parameters.map (fun p => p.val) ∧
    (Model.to_unsteady (Model.to_steady m)).blocks = m.blocks ∧
    (Model.to_unsteady (Model.to_steady m)).hidden_blocks = m.hidden_blocks := by
  obtain ⟨hplen, hblen, hhlen, hba, hpar, hcachesnd⟩ := toSteadyInv_steady m hfresh hhid
  have hB1 : ∀ j, j < m.parameters.length →
      ((Model.to_steady m).parameters.map ParameterQ.to_unsteady).getD j defaultParameter =
        ⟨(m.parameters.getD j defaultParameter).val, none⟩ := by
    intro j hj
    have hj' : j < (Model.to_steady m).parameters.length := by omega
    rw [getD_map_param _ _ _ _ defaultParameter hj']
    rcases hpar j hj with hL | ⟨hR, -⟩
    · rw [hL]
      rfl
    · rw [hR]
      rfl
  have hP1len : ((Model.to_steady m).parameters.map ParameterQ.to_unsteady).length =
      m.parameters.length := by
    rw [List.length_map]
    exact hplen
  set P1 := (Model.to_steady m).parameters.map ParameterQ.to_unsteady with hP1def
  set PS := (Model.to_steady m).param_value_cache.foldl
      (fun ps kv => ps.set kv.1 ((ps.getD kv.1 defaultParameter).update kv.2)) P1 with hPSdef
  have hB2 : PS.length = m.parameters.length ∧
      ∀ j, j < m.parameters.length →
        PS.getD j defaultParameter = ⟨(m.parameters.getD j defaultParameter).val, none⟩ := by
    rw [hPSdef]
    refine List.foldlRecOn (motive := fun (ps : List ParameterQ) =>
      ps.length = m.parameters.length ∧
      ∀ j, j < m.parameters.length →
        ps.getD j defaultParameter = ⟨(m.parameters.getD j defaultParameter).val, none⟩)
      _ _ _ ⟨hP1len, hB1⟩ ?_
    intro ps hps kv hkv
    obtain ⟨hlen, hpt⟩ := hps
    obtain ⟨hv, b, hbmem, hbty, hbpid⟩ := hcachesnd kv hkv
    constructor
    · rw [List.length_set]
      exact hlen
    · intro j hj
      by_cases hjk : j = kv.1
      · rw [hjk] at hj ⊢
        rw [getD_set_self _ _ _ _ (by omega : kv.1 < ps.length)]
        rw [hpt kv.1 hj]
        obtain ⟨cv, hcv⟩ := hcap b hbmem hbty
        rw [hbpid] at hcv
        rw [hv, hcv]
        rfl
      · rw [getD_set_ne _ _ _ _ _ hjk]
        exact hpt j hj
  set m2 : ModelQ := ⟨PS, (Model.to_steady m).blocks, (Model.to_steady m).hidden_blocks,
      (Model.to_steady m).param_value_cache, (Model.to_steady m).block_index_map⟩ with hm2def
  set RNG := List.range ((Model.to_steady m).blocks.length +
      (Model.to_steady m).hidden_blocks.length) with hrng
  have hfinal : Model.to_unsteady (Model.to_steady m) =
      RNG.foldl (fun a i => setSteadyAt a i false) m2 := rfl
  obtain ⟨hfp, hfbl, hfhl, hfba⟩ := clear_flags_fold RNG m2 (by
    intro i hi
    show i < (Model.to_steady m).blocks.length + (Model.to_steady m).hidden_blocks.length
    rw [hrng] at hi
    exact List.mem_range.mp hi)
  refine ⟨?_, ?_, ?_⟩
  · rw [hfinal, hfp]
    show PS.map (fun p => p.val) = m.parameters.map (fun p => p.val)
    refine List.ext_getElem ?_ ?_
    · rw [List.length_map, List.length_map]
      exact hB2.1
    · intro j h1 h2
      have hjn : j < m.parameters.length := by simpa using h2
      have hjf : j < PS.length := by
        rw [hB2.1]
        exact hjn
      rw [List.getElem_map, List.getElem_map,
        ← List.getD_eq_getElem PS defaultParameter hjf,
        ← List.getD_eq_getElem m.parameters defaultParameter hjn, hB2.2 j hjn]
  · rw [hfinal]
    refine List.ext_getElem ?_ ?_
    · rw [hfbl]
      show (Model.to_steady m).blocks.length = m.blocks.length
      exact hblen
    · intro j h1 h2
      have hjtot : j < (Model.to_steady m).blocks.length +
          (Model.to_steady m).hidden_blocks.length := by omega
      have hjr : j ∈ RNG := by
        rw [hrng]
        exact List.mem_range.mpr hjtot
      have hj2 : j < (RNG.foldl (fun a i => setSteadyAt a i false) m2).blocks.length := by
        rw [hfbl]
        show j < (Model.to_steady m).blocks.length
        omega
      have hgb : blockAt (RNG.foldl (fun a i => setSteadyAt a i false) m2) j =
          (RNG.foldl (fun a i => setSteadyAt a i false) m2).blocks[j] := by
        unfold blockAt
        rw [if_pos hj2]
        exact List.getD_eq_getElem _ _ hj2
      rw [← hgb, hfba j, if_pos hjr]
      have hm2b : blockAt m2 j = blockAt (Model.to_steady m) j := rfl
      rw [hm2b, hba j, block_override]
      have hbm : blockAt m j = m.blocks[j] := by
        unfold blockAt
        rw [if_pos h2]
        exact List.getD_eq_getElem _ _ h2
      rw [hbm]
      exact block_set_false_self _ (hflags _ (List.mem_append_left _ (List.getElem_mem _)))
  · rw [hfinal]
    refine List.ext_getElem ?_ ?_
    · rw [hfhl]
      show (Model.to_steady m).hidden_blocks.length = m.hidden_blocks.length
      exact hhlen
    · intro j h1 h2
      have hjtot : m.blocks.length + j < (Model.to_steady m).blocks.length +
          (Model.to_steady m).hidden_blocks.length := by omega
      have hjr : (m.blocks.length + j) ∈ RNG := by
        rw [hrng]
        exact List.mem_range.mpr hjtot
      have hnlt : ¬ (m.blocks.length + j <
          (RNG.foldl (fun a i => setSteadyAt a i false) m2).blocks.length) := by
        rw [hfbl]
        show ¬ (m.blocks.length + j < (Model.to_steady m).blocks.length)
        omega
      have hj2 : j < (RNG.foldl (fun a i => setSteadyAt a i false) m2).hidden_blocks.length := by
        rw [hfhl]
        show j < (Model.to_steady m).hidden_blocks.length
        omega
      have hsub : m.blocks.length + j -
          (RNG.foldl (fun a i => setSteadyAt a i false) m2).blocks.length = j := by
        rw [hfbl]
        show m.blocks.length + j - (Model.to_steady m).blocks.length = j
        omega
      have hgb : blockAt (RNG.foldl (fun a i => setSteadyAt a i false) m2)
            (m.blocks.length + j) =
          (RNG.foldl (fun a i => setSteadyAt a i false) m2).hidden_blocks[j] := by
        unfold blockAt
        rw [if_neg hnlt, hsub]
        exact List.getD_eq_getElem _ _ hj2
      rw [← hgb, hfba (m.blocks.length + j), if_pos hjr]
      have hm2b : blockAt m2 (m.blocks.length + j) =
          blockAt (Model.to_steady m) (m.blocks.length + j) := rfl
      rw [hm2b, hba (m.blocks.length + j), block_override]
      have hbm : blockAt m (m.blocks.length + j) = m.hidden_blocks[j] := by
        unfold blockAt
        rw [if_neg (by omega : ¬ (m.blocks.length + j < m.blocks.length))]
        have hsub2 : m.blocks.length + j - m.blocks.length = j := by omega
        rw [hsub2]
        exact List.getD_eq_getElem _ _ h2
      rw [hbm]
      exact block_set_false_self _ (hflags _ (List.mem_append_right _ (List.getElem_mem _)))

/-- Witness for C7 at a concrete input: a fresh model with one Windkessel block
whose capacitance parameter is constant. -/
theorem C7_round_trip_conditional_witness :
    (∀ b ∈ modelWkConst.blocks ++ modelWkConst.hidden_blocks, b.steady = false) ∧
    (∀ b ∈ modelWkConst.hidden_blocks, b.btype = BlockTypeQ.OTHER) ∧
    modelWkConst.param_value_cache = [] ∧
    (∀ b ∈ modelWkConst.blocks,
      (b.btype = BlockTypeQ.WINDKESSELBC ∨ b.btype = BlockTypeQ.CLOSEDLOOPRCRBC) →
      ∃ cv, (modelWkConst.parameters.getD (b.global_param_ids.getD 1 0)
        defaultParameter).val = ParamVal.const cv) ∧
    ((Model.to_unsteady (Model.to_steady modelWkConst)).parameters.map (fun p => p.val) =
        modelWkConst.parameters.map (fun p => p.val) ∧
      (Model.to_unsteady (Model.to_steady modelWkConst)).blocks = modelWkConst.blocks ∧
      (Model.to_unsteady (Model.to_steady modelWkConst)).hidden_blocks =
        modelWkConst.hidden_blocks) := by
  have hflags : ∀ b ∈ modelWkConst.blocks ++ modelWkConst.hidden_blocks,
      b.steady = false := by
    intro b hb
    rcases List.mem_singleton.mp hb with rfl
    rfl
  have hhid : ∀ b ∈ modelWkConst.hidden_blocks, b.btype = BlockTypeQ.OTHER := by
    intro b hb
    cases hb
  have hcap : ∀ b ∈ modelWkConst.blocks,
      (b.btype = BlockTypeQ.WINDKESSELBC ∨ b.btype = BlockTypeQ.CLOSEDLOOPRCRBC) →
      ∃ cv, (modelWkConst.parameters.getD (b.global_param_ids.getD 1 0)
        defaultParameter).val = ParamVal.const cv := by
    intro b hb _
    rcases List.mem_singleton.mp hb with rfl
    exact ⟨1/10000, rfl⟩
  exact ⟨hflags, hhid, rfl, hcap,
    C7_round_trip_conditional modelWkConst hflags hhid rfl hcap⟩

/-! ### Claim C5 -/

/-- C5.  The claim states that a run with steady initialization requested and a
"CLH" block present aborts with an error before any integration step.  The
source (Junction.cpp lines 300-307) constructs the `std::runtime_error` but
never throws it, so `run()` proceeds: it executes the 31 steady-initialization
steps and all 100 main-loop steps and never returns the error. -/
theorem C5_clh_steady_check_never_throws :
    run_sim runInputClh = Except.ok (1/10, 31, 100) ∧
    runInputClh.sim_steady_initial = true ∧ runInputClh.has_clh_block = true ∧
    run_sim runInputClh ≠ Except.error clh_steady_error_msg := by
  refine ⟨?_, rfl, rfl, ?_⟩
  · simp only [run_sim, runInputClh]
    norm_num
    rfl
  · simp [run_sim, runInputClh]

/-! ### Claim C8 -/

/-- C8 counterexample.  The claim states that `Model::get_num_triplets` sums the
per-block triplet counts over all blocks including hidden ones; on a model with
one visible block (3,1,0) and one hidden block (10,2,2) the code (Model.cpp
lines 277-289, which iterates over `blocks` only) returns (3,1,0), not the
all-blocks total (13,3,2). -/
theorem C8_counterexample_hidden_blocks_ignored :
    Model.get_num_triplets modelWithHidden = (3, 1, 0) ∧
    allBlocksTriplets modelWithHidden = (13, 3, 2) ∧
    Model.get_num_triplets modelWithHidden ≠ allBlocksTriplets modelWithHidden := by
  refine ⟨rfl, rfl, ?_⟩
  decide

/-- C8 amended.  `Model::get_num_triplets` returns, for each of F, E and D, the
sum of the per-block triplet counts over the non-hidden blocks only; the
hidden-block list does not influence the result. -/
theorem C8_get_num_triplets_visible_only (m : ModelQ) (h : List BlockQ) :
    Model.get_num_triplets m =
      m.blocks.foldl
        (fun acc b => (acc.1 + b.num_triplets_F, acc.2.1 + b.num_triplets_E,
                       acc.2.2 + b.num_triplets_D)) (0, 0, 0) ∧
    Model.get_num_triplets { m with hidden_blocks := h } = Model.get_num_triplets m :=
  ⟨rfl, rfl⟩

/-! ### Claim C9 -/

/-- C9.  For a non-coupled configuration, `load_simulation_params` derives
`num_time_steps = (pts_per_cycle - 1) * num_cycles + 1` and `run()` derives the
time step size `cardiac_cycle_period / (pts_per_cycle - 1)`; for a coupled
configuration, the derived number of time steps is `number_of_time_pts` and the
time step size is `external_step_size / (num_time_steps - 1)`. -/
theorem C9_time_step_derivations (c : SimConfig) (period : ℚ) :
    (load_simulation_params { c with coupled_simulation := some false }).sim_num_time_steps =
      (c.number_of_time_pts_per_cardiac_cycle - 1) * c.number_of_cardiac_cycles + 1 ∧
    run_time_step_size (load_simulation_params { c with coupled_simulation := some false })
        period =
      period / ((c.number_of_time_pts_per_cardiac_cycle : ℚ) - 1) ∧
    (load_simulation_params { c with coupled_simulation := some true }).sim_num_time_steps =
      c.number_of_time_pts ∧
    run_time_step_size (load_simulation_params { c with coupled_simulation := some true })
        period =
      (load_simulation_params { c with coupled_simulation := some true }).sim_external_step_size
        / (((load_simulation_params
              { c with coupled_simulation := some true }).sim_num_time_steps : ℚ) - 1) ∧
    (load_simulation_params { c with coupled_simulation := some true }).sim_external_step_size =
      c.external_step_size.getD (1/10) :=
  ⟨rfl, rfl, rfl, rfl, rfl⟩

/-! ### Claim C10 -/

/-- C10.  For a name absent from `block_index_map` (never registered via
`add_block`), `Model::get_block` returns a null pointer and leaves the model
unchanged, while `Model::get_block_type` raises the lookup error and also
leaves the model unchanged. -/
theorem C10_unregistered_name_lookup (m : ModelQ) (name : String)
    (h : m.block_index_map.lookup name = none) :
    Model.get_block m name = (none, m) ∧
    Model.get_block_type m name =
      (.error ("Could not find block with name " ++ name), m) := by
  unfold Model.get_block Model.get_block_type
  rw [h]
  simp

/-- Witness for C10: the empty model and the name "absent". -/
theorem C10_unregistered_name_lookup_witness :
    emptyModel.block_index_map.lookup "absent" = none ∧
    (Model.get_block emptyModel "absent" = (none, emptyModel) ∧
     Model.get_block_type emptyModel "absent" =
       (.error ("Could not find block with name " ++ "absent"), emptyModel)) :=
  ⟨rfl, C10_unregistered_name_lookup emptyModel "absent" rfl⟩

end SvZeroD
